import Mathlib

/-!
Shallow embedding of the simulation core of the mc-trade-sizing repository
(file src/dps_sub.py, with the ranking tail also present in
src/MyTradingSimulator_sub.py).  Trade outcomes and monetary amounts are
rationals; position sizes are naturals; the NumPy float drawdown reduction
is modelled over the rationals, with np.min of an empty array (a runtime
error in NumPy) rendered as Option.none.
-/

/-- The 'mode' field of the mutable state dict in strategy_dynamic:
either the string 'trading' or the string 'pause'. -/
inductive Mode where
  | trading
  | pause
deriving DecidableEq

/-- The state dict created at the top of strategy_dynamic:
\x7b'win_streak': 0, 'loss_streak': 0, 'mode': 'trading',
'last_result': 0, 'last2_result': 0\x7d. -/
structure StrategyState where
  win_streak : Nat
  loss_streak : Nat
  mode : Mode
  last_result : Rat
  last2_result : Rat
deriving DecidableEq

/-- The fresh state built at the start of strategy_dynamic. -/
def initState : StrategyState :=
  { win_streak := 0, loss_streak := 0, mode := Mode.trading
    last_result := 0, last2_result := 0 }

/-- The type of the inner func(result, size, state) closures returned by
make_condition_func: they receive the current outcome, the current position
size and the (already streak-updated) state, and return the next position
size together with the updated state. -/
def CondFunc : Type := Rat → Nat → StrategyState → Nat × StrategyState

/-- make_condition_func(strategy_id) from src/dps_sub.py lines 170-404:
the 20 per-policy size/state update rules.  Each branch is a direct
transcription of the corresponding Python branch, including the branches
that re-increment a streak counter that strategy_dynamic has already
incremented (ids 3-5, 10-13, 15, 16, 18) and the unreachable
'elif result > 0: size = 2' arm of id 20. -/
def make_condition_func (strategy_id : Nat) : CondFunc := fun result size state =>
  match strategy_id with
  | 1 => (1, state)
  | 2 => (if 0 < result then 2 else 1, state)
  | 3 =>
    if 0 < result then
      let st := { state with win_streak := state.win_streak + 1 }
      (if 2 ≤ st.win_streak then 1 else 2, st)
    else
      (1, { state with win_streak := 0 })
  | 4 =>
    if 0 < result then
      let st := { state with win_streak := state.win_streak + 1 }
      (if 3 ≤ st.win_streak then 1 else 2, st)
    else
      (1, { state with win_streak := 0 })
  | 5 =>
    if 0 < result then
      let st := { state with win_streak := state.win_streak + 1 }
      (if 4 ≤ st.win_streak then 1 else 2, st)
    else
      (1, { state with win_streak := 0 })
  | 6 => (if result ≤ 0 then 2 else 1, state)
  | 7 =>
    if 0 < result then
      (1, { state with loss_streak := 0 })
    else
      let st := { state with loss_streak := state.loss_streak + 1 }
      (if 2 ≤ st.loss_streak then 2 else 1, st)
  | 8 =>
    if 0 < result then
      (1, { state with loss_streak := 0 })
    else
      let st := { state with loss_streak := state.loss_streak + 1 }
      (if 3 ≤ st.loss_streak then 2 else 1, st)
  | 9 =>
    match state.mode with
    | Mode.trading =>
      if 0 < result then (1, { state with mode := Mode.pause }) else (1, state)
    | Mode.pause =>
      if result ≤ 0 then (1, { state with mode := Mode.trading }) else (0, state)
  | 10 =>
    match state.mode with
    | Mode.trading =>
      if 0 < result then
        let st := { state with win_streak := state.win_streak + 1 }
        (1, if 2 ≤ st.win_streak then { st with mode := Mode.pause } else st)
      else
        (1, { state with win_streak := 0 })
    | Mode.pause =>
      if result ≤ 0 then (1, { state with mode := Mode.trading, win_streak := 0 })
      else (0, state)
  | 11 =>
    match state.mode with
    | Mode.trading =>
      if 0 < result then
        let st := { state with win_streak := state.win_streak + 1 }
        (1, if 3 ≤ st.win_streak then { st with mode := Mode.pause } else st)
      else
        (1, { state with win_streak := 0 })
    | Mode.pause =>
      if result ≤ 0 then (1, { state with mode := Mode.trading, win_streak := 0 })
      else (0, state)
  | 12 =>
    match state.mode with
    | Mode.trading =>
      if 0 < result then
        let st := { state with win_streak := state.win_streak + 1 }
        (1, if 4 ≤ st.win_streak then { st with mode := Mode.pause } else st)
      else
        (1, { state with win_streak := 0 })
    | Mode.pause =>
      if result ≤ 0 then (1, { state with mode := Mode.trading, win_streak := 0 })
      else (0, state)
  | 13 =>
    if 0 < result then
      let st := { state with win_streak := state.win_streak + 1 }
      (if 2 ≤ st.win_streak then 2 else size, st)
    else
      let st := { state with loss_streak := state.loss_streak + 1 }
      (if 2 ≤ st.loss_streak then 1 else size, st)
  | 14 =>
    if 0 < result ∧ state.last2_result ≤ 0 then (2, state) else (1, state)
  | 15 =>
    match state.mode with
    | Mode.trading =>
      if 0 < result then
        let st := { state with win_streak := state.win_streak + 1 }
        if 2 ≤ st.win_streak then (2, { st with mode := Mode.pause }) else (1, st)
      else
        (1, { state with win_streak := 0 })
    | Mode.pause =>
      if result ≤ 0 then (1, { state with mode := Mode.trading, win_streak := 0 })
      else (0, state)
  | 16 =>
    match state.mode with
    | Mode.trading =>
      if 0 < result then
        (1, { state with mode := Mode.pause })
      else
        let st := { state with loss_streak := state.loss_streak + 1 }
        (if 2 ≤ st.loss_streak then 2 else 1, st)
    | Mode.pause =>
      if result ≤ 0 then (1, { state with mode := Mode.trading }) else (0, state)
  | 17 =>
    if 0 < result ∧ state.last2_result ≤ 0 then (2, state) else (1, state)
  | 18 =>
    if 0 < result then
      let st := { state with win_streak := state.win_streak + 1 }
      (if 3 ≤ st.win_streak then 3 else size, st)
    else
      (1, { state with win_streak := 0 })
  | 19 =>
    (if 2 ≤ state.win_streak then 2
     else if 2 ≤ state.loss_streak then 3
     else 1, state)
  | 20 =>
    (if 0 < result then 1
     else if 2 ≤ state.loss_streak then 3
     else if 0 < result then 2
     else 1, state)
  | _ => (1, state)

/-- One iteration of the loop body of strategy_dynamic (lines 146-165):
computes the equity contribution of the current trade (0 while paused),
performs the streak update, shifts last_result into last2_result, and then
applies the policy's condition function.  Returns
(contribution, (next size, next state)). -/
def dynStep (cond : CondFunc) (r : Rat) (size : Nat) (st : StrategyState) :
    Rat × Nat × StrategyState :=
  let contrib := if st.mode = Mode.trading then r * (size : Rat) else 0
  let st1 :=
    if 0 < r then { st with win_streak := st.win_streak + 1, loss_streak := 0 }
    else { st with loss_streak := st.loss_streak + 1, win_streak := 0 }
  let st2 := { st1 with last2_result := st1.last_result, last_result := r }
  (contrib, cond r size st2)

/-- The equity list built by strategy_dynamic: one contribution per trade. -/
def dynEquity (cond : CondFunc) : List Rat → Nat → StrategyState → List Rat
  | [], _, _ => []
  | r :: rs, size, st =>
    (dynStep cond r size st).1 ::
      dynEquity cond rs (dynStep cond r size st).2.1 (dynStep cond r size st).2.2

/-- The position size in force at each trade of strategy_dynamic
(the value of position_size just before the trade is processed). -/
def dynSizes (cond : CondFunc) : List Rat → Nat → StrategyState → List Nat
  | [], _, _ => []
  | r :: rs, size, st =>
    size :: dynSizes cond rs (dynStep cond r size st).2.1 (dynStep cond r size st).2.2

/-- The mode in force at each trade of strategy_dynamic
(the field checked by the 'if state.mode == trading' contribution guard). -/
def dynModes (cond : CondFunc) : List Rat → Nat → StrategyState → List Mode
  | [], _, _ => []
  | r :: rs, size, st =>
    st.mode :: dynModes cond rs (dynStep cond r size st).2.1 (dynStep cond r size st).2.2

/-- np.cumsum with explicit running accumulator. -/
def cumsumFrom (acc : Rat) : List Rat → List Rat
  | [] => []
  | x :: xs => (acc + x) :: cumsumFrom (acc + x) xs

/-- np.cumsum of a list of rationals. -/
def np_cumsum (l : List Rat) : List Rat := cumsumFrom 0 l

/-- np.maximum.accumulate continued from a running maximum c. -/
def npMaxAccumFrom (c : Rat) : List Rat → List Rat
  | [] => []
  | x :: xs => max c x :: npMaxAccumFrom (max c x) xs

/-- np.maximum.accumulate: the running peak of an equity curve. -/
def npMaximumAccumulate : List Rat → List Rat
  | [] => []
  | x :: xs => x :: npMaxAccumFrom x xs

/-- calculate_drawdown (src/dps_sub.py lines 130-133):
peak = np.maximum.accumulate(equity_curve); drawdowns = equity_curve - peak;
return np.min(drawdowns).  np.min raises on an empty array, rendered here
as Option.none (List.min? of the empty list). -/
def calculate_drawdown (equity_curve : List Rat) : Option Rat :=
  (List.zipWith (fun a b => a - b) equity_curve (npMaximumAccumulate equity_curve)).min?

/-- strategy_dynamic (src/dps_sub.py lines 141-168): evaluates one policy on
a trade sequence starting from a fresh state and position size 1, returning
(np.sum(equity), calculate_drawdown(np.cumsum(equity))). -/
def strategy_dynamic (results : List Rat) (cond : CondFunc) : Rat × Option Rat :=
  let equity := dynEquity cond results 1 initState
  (equity.sum, calculate_drawdown (np_cumsum equity))

/-- Claim C2: policy 2 on the fixed sequence [100, -100, 100, -100] produces
contributions [100, -200, 100, -200], total profit -200, cumulative equity
[100, -100, 0, -200], running peaks [100, 100, 100, 100], per-step drawdowns
[0, -200, -100, -300] and max drawdown -300. -/
theorem claim_C2_policy2_scenario :
    dynEquity (make_condition_func 2) [100, -100, 100, -100] 1 initState
      = [100, -200, 100, -200] ∧
    (strategy_dynamic [100, -100, 100, -100] (make_condition_func 2)).1 = -200 ∧
    np_cumsum [100, -200, 100, -200] = [100, -100, 0, -200] ∧
    npMaximumAccumulate [100, -100, 0, -200] = [100, 100, 100, 100] ∧
    List.zipWith (fun a b => a - b) [100, -100, 0, -200] [100, 100, 100, 100]
      = [0, -200, -100, -300] ∧
    (strategy_dynamic [100, -100, 100, -100] (make_condition_func 2)).2 = some (-300) := by
  norm_num [strategy_dynamic, dynEquity, dynStep, make_condition_func, initState,
    np_cumsum, cumsumFrom, npMaximumAccumulate, npMaxAccumFrom, calculate_drawdown,
    List.min?]

/-- Claim C1 (refuting evaluation): policies 3, 4, 5 on all-win sequences.
Under policy 3 the trade following a single win is taken at size 1, not 2,
and under policies 4 and 5 the size resets to 1 already after 2 consecutive
wins instead of after 3 or 4: win_streak is incremented both in
strategy_dynamic and again inside the policy branch, so one win already
reaches the threshold 2 and two consecutive wins reach the thresholds 3
and 4. -/
theorem claim_C1_double_increment_eval :
    dynSizes (make_condition_func 3) [100, 100] 1 initState = [1, 1] ∧
    dynSizes (make_condition_func 4) [100, 100, 100] 1 initState = [1, 2, 1] ∧
    dynSizes (make_condition_func 5) [100, 100, 100] 1 initState = [1, 2, 1] := by
  decide

/-- Claim C6 (refuting evaluation): policy 20 applies size 1, not 2, to the
trade following a win (the previously applied size being 1, not 3): the
'elif result > 0: size = 2' arm is unreachable because the leading
'if result > 0' already caught every win.  The size-3-after-2-losses part
does hold: on [-100, -100, -100] the sizes are [1, 1, 3]. -/
theorem claim_C6_policy20_eval :
    dynSizes (make_condition_func 20) [100, 100] 1 initState = [1, 1] ∧
    dynSizes (make_condition_func 20) [-100, -100, -100] 1 initState = [1, 1, 3] := by
  decide

/-- Claim C7 (refuting evaluation): policy 15 on [100, 100, -100, 100].
The loss at index 2 occurs in Paused mode and resumes trading, but the next
trade actually taken (index 3) is at position size 1 with contribution 100,
not at size 2: the branch that assigns size 2 fires on entry to the pause
(index 1, where the size is never applied because paused contributions are
0), while the resume branch assigns size 1. -/
theorem claim_C7_policy15_eval :
    dynSizes (make_condition_func 15) [100, 100, -100, 100] 1 initState = [1, 2, 0, 1] ∧
    dynModes (make_condition_func 15) [100, 100, -100, 100] 1 initState
      = [Mode.trading, Mode.pause, Mode.pause, Mode.trading] ∧
    dynEquity (make_condition_func 15) [100, 100, -100, 100] 1 initState
      = [100, 0, 0, 100] := by
  norm_num [dynSizes, dynModes, dynEquity, dynStep, make_condition_func, initState]
  decide

/-- Every per-step drawdown is nonpositive: each element of the equity curve
is dominated by the running peak continued from any starting maximum c. -/
theorem zipSub_npMaxAccumFrom_nonpos (xs : List Rat) :
    ∀ c : Rat, ∀ y ∈ List.zipWith (fun a b => a - b) xs (npMaxAccumFrom c xs), y ≤ 0 := by
  induction xs with
  | nil => intro c y hy; simp [npMaxAccumFrom] at hy
  | cons x xs ih =>
    intro c y hy
    simp only [npMaxAccumFrom, List.zipWith_cons_cons, List.mem_cons] at hy
    rcases hy with h | h
    · exact h ▸ sub_nonpos.mpr (le_max_right c x)
    · exact ih (max c x) y h

/-- All per-step drawdowns vanish exactly when the curve, prefixed by the
starting maximum c, is non-decreasing step by step. -/
theorem zipSub_npMaxAccumFrom_zero_iff (xs : List Rat) :
    ∀ c : Rat,
      ((∀ y ∈ List.zipWith (fun a b => a - b) xs (npMaxAccumFrom c xs), y = 0)
        ↔ List.Chain' (fun a b => a ≤ b) (c :: xs)) := by
  induction xs with
  | nil => intro c; simp [npMaxAccumFrom]
  | cons x xs ih =>
    intro c
    simp only [npMaxAccumFrom, List.zipWith_cons_cons, List.mem_cons, List.chain'_cons,
      forall_eq_or_imp]
    constructor
    · rintro ⟨h0, hrest⟩
      have hmx : max c x = x := (sub_eq_zero.mp h0).symm
      have hcx : c ≤ x := hmx ▸ le_max_left c x
      have hch := (ih (max c x)).mp hrest
      rw [hmx] at hch
      exact ⟨hcx, hch⟩
    · rintro ⟨hcx, hchain⟩
      have hmax : max c x = x := max_eq_right hcx
      refine ⟨by simp [hmax], ?_⟩
      exact (ih (max c x)).mpr (by simpa [hmax] using hchain)

/-- List.foldl min never exceeds its initial accumulator. -/
theorem foldl_min_le_init (l : List Rat) : ∀ a : Rat, l.foldl min a ≤ a := by
  induction l with
  | nil => intro a; simp
  | cons x l ih =>
    intro a
    calc l.foldl min (min a x) ≤ min a x := ih (min a x)
    _ ≤ a := min_le_left a x

/-- List.foldl min is bounded by every member of the list. -/
theorem foldl_min_le_mem (l : List Rat) :
    ∀ a y : Rat, y ∈ l → l.foldl min a ≤ y := by
  induction l with
  | nil => intro a y hy; simp at hy
  | cons x l ih =>
    intro a y hy
    rcases List.mem_cons.mp hy with h | h
    · subst h
      calc l.foldl min (min a y) ≤ min a y := foldl_min_le_init l (min a y)
      _ ≤ y := min_le_right a y
    · exact ih (min a x) y h

/-- A common lower bound of the accumulator and all members bounds the fold. -/
theorem le_foldl_min (l : List Rat) :
    ∀ a b : Rat, b ≤ a → (∀ y ∈ l, b ≤ y) → b ≤ l.foldl min a := by
  induction l with
  | nil => intro a b hb _; simpa using hb
  | cons x l ih =>
    intro a b hb h
    exact ih (min a x) b (le_min hb (h x (by simp))) fun y hy => h y (by simp [hy])

/-- Claim C5: for every non-empty equity curve, calculate_drawdown returns a
value d with d ≤ 0, and d = 0 exactly when the curve is non-decreasing
throughout (adjacent steps never fall). -/
theorem claim_C5_drawdown_nonpos_zero_iff (equity_curve : List Rat)
    (h : equity_curve ≠ []) :
    ∃ d, calculate_drawdown equity_curve = some d ∧ d ≤ 0 ∧
      (d = 0 ↔ List.Chain' (fun a b => a ≤ b) equity_curve) := by
  obtain ⟨x, xs, rfl⟩ := List.exists_cons_of_ne_nil h
  have hdef : calculate_drawdown (x :: xs)
      = some ((List.zipWith (fun a b => a - b) xs (npMaxAccumFrom x xs)).foldl min (x - x)) := by
    simp [calculate_drawdown, npMaximumAccumulate, List.min?]
  refine ⟨_, hdef, ?_, ?_⟩
  · calc (List.zipWith (fun a b => a - b) xs (npMaxAccumFrom x xs)).foldl min (x - x)
        ≤ x - x := foldl_min_le_init _ _
    _ = 0 := sub_self x
  · constructor
    · intro hzero
      refine (zipSub_npMaxAccumFrom_zero_iff xs x).mp ?_
      intro y hy
      have h1 : y ≤ 0 := zipSub_npMaxAccumFrom_nonpos xs x y hy
      have h2 := foldl_min_le_mem _ (x - x) y hy
      rw [hzero] at h2
      linarith
    · intro hchain
      have hall := (zipSub_npMaxAccumFrom_zero_iff xs x).mpr hchain
      have h1 : (0 : Rat) ≤ (List.zipWith (fun a b => a - b) xs (npMaxAccumFrom x xs)).foldl min (x - x) := by
        refine le_foldl_min _ _ _ (by simp) ?_
        intro y hy
        rw [hall y hy]
      have h2 : (List.zipWith (fun a b => a - b) xs (npMaxAccumFrom x xs)).foldl min (x - x) ≤ 0 := by
        calc (List.zipWith (fun a b => a - b) xs (npMaxAccumFrom x xs)).foldl min (x - x)
            ≤ x - x := foldl_min_le_init _ _
        _ = 0 := sub_self x
      linarith

/-- Claim C5 witness: the theorem applied to the concrete curve [1, 2]. -/
theorem claim_C5_drawdown_witness :
    ∃ d, calculate_drawdown [1, 2] = some d ∧ d ≤ 0 ∧
      (d = 0 ↔ List.Chain' (fun a b => a ≤ b) [(1 : Rat), 2]) :=
  claim_C5_drawdown_nonpos_zero_iff [1, 2] (by simp)

/-- The sizing rule policies 14 and 17 implement, as a stand-alone
recursion on the trade list: the head is the size in force at the current
trade, and the size for the next trade is 2 exactly when the just-observed
outcome is a win and the outcome before it (prev) was not a win. -/
def pol14Run : List Rat → Nat → Rat → List Nat
  | [], _, _ => []
  | r :: rs, size, prev => size :: pol14Run rs (if 0 < r ∧ prev ≤ 0 then 2 else 1) r

/-- Policy 14's trade-by-trade sizes coincide with the stand-alone rule,
keyed on the last_result field of the state. -/
theorem dynSizes_pol14 (rs : List Rat) :
    ∀ (size : Nat) (st : StrategyState),
      dynSizes (make_condition_func 14) rs size st = pol14Run rs size st.last_result := by
  induction rs with
  | nil => intro size st; rfl
  | cons r rs ih =>
    intro size st
    by_cases hr : 0 < r
    · by_cases hp : st.last_result ≤ 0
      · simp [dynSizes, pol14Run, dynStep, make_condition_func, hr, hp, ih]
      · simp [dynSizes, pol14Run, dynStep, make_condition_func, hr, hp, ih]
    · simp [dynSizes, pol14Run, dynStep, make_condition_func, hr, ih]

/-- Claim C9: policies 14 and 17 are extensionally equal: on every trade
sequence they apply the same position size at every step — namely size 2
exactly when the just-observed outcome is a win and the outcome preceding
it was not a win (the virtual outcome before the first trade being 0), else
size 1 — and they produce the identical (total_profit, max_drawdown)
sample. -/
theorem claim_C9_policies_14_17_equal (results : List Rat) :
    strategy_dynamic results (make_condition_func 14)
      = strategy_dynamic results (make_condition_func 17) ∧
    dynSizes (make_condition_func 14) results 1 initState
      = dynSizes (make_condition_func 17) results 1 initState ∧
    dynSizes (make_condition_func 14) results 1 initState = pol14Run results 1 0 := by
  have hfun : make_condition_func 14 = make_condition_func 17 := rfl
  refine ⟨by rw [hfun], by rw [hfun], ?_⟩
  have := dynSizes_pol14 results 1 initState
  simpa [initState] using this

/-- Each trade's equity contribution is outcome times size if the mode in
force at that trade is trading, and exactly 0 if the mode is pause. -/
theorem dynEquity_eq_zipWith (cond : CondFunc) (rs : List Rat) :
    ∀ (size : Nat) (st : StrategyState),
      dynEquity cond rs size st
        = List.zipWith (fun r sm => if sm.2 = Mode.trading then r * (sm.1 : Rat) else 0)
            rs ((dynSizes cond rs size st).zip (dynModes cond rs size st)) := by
  induction rs with
  | nil => intro size st; rfl
  | cons r rs ih =>
    intro size st
    simp only [dynEquity, dynSizes, dynModes, List.zip_cons_cons, List.zipWith_cons_cons]
    congr 1
    exact ih _ _

/-- Claim C10: for every policy condition function and every trade
sequence, a trade processed while the mode is pause contributes exactly 0
to equity regardless of the position size then held, and total_profit is
the sum of outcome times position size over the trades processed in
trading mode (the zipWith below is 0 at every paused index). -/
theorem claim_C10_paused_trades_contribute_zero (cond : CondFunc) (results : List Rat) :
    dynEquity cond results 1 initState
      = List.zipWith (fun r sm => if sm.2 = Mode.trading then r * (sm.1 : Rat) else 0)
          results ((dynSizes cond results 1 initState).zip (dynModes cond results 1 initState)) ∧
    (strategy_dynamic results cond).1
      = (List.zipWith (fun r sm => if sm.2 = Mode.trading then r * (sm.1 : Rat) else 0)
          results ((dynSizes cond results 1 initState).zip (dynModes cond results 1 initState))).sum := by
  refine ⟨dynEquity_eq_zipWith cond results 1 initState, ?_⟩
  show (dynEquity cond results 1 initState).sum = _
  rw [dynEquity_eq_zipWith cond results 1 initState]

/-- One phase of simulate_trades_dynamic or one regime of
simulate_trades_regime_switch: a dict with keys length, hit_rate, avg_win
and avg_loss.  Lengths are naturals (int() of a non-negative float). -/
structure Phase where
  len : Nat
  hit_rate : Rat
  avg_win : Rat
  avg_loss : Rat

/-- np.random.choice([w, -l], size=k, p=[hr, 1-hr]) with the random source
made explicit: rand is the stream of uniform draws, consumed from index k0,
and draw j is a win exactly when it falls below hr. -/
def npChoice (rand : Nat → Rat) (k0 : Nat) (hr w l : Rat) (k : Nat) : List Rat :=
  (List.range k).map fun j => if rand (k0 + j) < hr then w else -l

/-- The phase/regime loop shared by simulate_trades_dynamic (lines 50-63)
and simulate_trades_regime_switch (lines 113-127): phases are consumed in
order, each contributing min(length, trades_left) draws (skipped when that
is 0), stopping as soon as trades_left reaches 0.  Returns
(results, final trades_left, next stream index). -/
def runPhases (rand : Nat → Rat) : List Phase → Nat → Nat → List Rat × Nat × Nat
  | [], trades_left, k => ([], trades_left, k)
  | ph :: rest, trades_left, k =>
    if min ph.len trades_left = 0 then runPhases rand rest trades_left k
    else if trades_left - min ph.len trades_left = 0 then
      (npChoice rand k ph.hit_rate ph.avg_win ph.avg_loss (min ph.len trades_left), 0,
        k + min ph.len trades_left)
    else
      (npChoice rand k ph.hit_rate ph.avg_win ph.avg_loss (min ph.len trades_left) ++
        (runPhases rand rest (trades_left - min ph.len trades_left)
          (k + min ph.len trades_left)).1,
       (runPhases rand rest (trades_left - min ph.len trades_left)
          (k + min ph.len trades_left)).2.1,
       (runPhases rand rest (trades_left - min ph.len trades_left)
          (k + min ph.len trades_left)).2.2)

/-- The three phases of simulate_trades_dynamic (lines 44-48): 20% boosted,
20% depressed, remainder at base parameters; int(num_trades * 0.2) and
int(num_trades * 0.4) are the floors num_trades / 5 and num_trades * 2 / 5. -/
def dynamicPhases (num_trades : Nat) (hit_rate avg_win avg_loss : Rat) : List Phase :=
  [ { len := num_trades / 5, hit_rate := min (hit_rate + 1/5) 1,
      avg_win := avg_win * (11/10), avg_loss := avg_loss * (9/10) },
    { len := num_trades / 5, hit_rate := max (hit_rate - 3/10) (1/20),
      avg_win := avg_win * (9/10), avg_loss := avg_loss * (11/10) },
    { len := num_trades - num_trades * 2 / 5, hit_rate := hit_rate,
      avg_win := avg_win, avg_loss := avg_loss } ]

/-- simulate_trades_dynamic (lines 43-66), the phased generator: the phase
loop followed by the backfill of any trades still left under the base
parameters. -/
def simulate_trades_dynamic (rand : Nat → Rat) (num_trades : Nat)
    (hit_rate avg_win avg_loss : Rat) : List Rat :=
  (runPhases rand (dynamicPhases num_trades hit_rate avg_win avg_loss) num_trades 0).1 ++
    npChoice rand
      (runPhases rand (dynamicPhases num_trades hit_rate avg_win avg_loss) num_trades 0).2.2
      hit_rate avg_win avg_loss
      (runPhases rand (dynamicPhases num_trades hit_rate avg_win avg_loss) num_trades 0).2.1

/-- The loop of simulate_trades_markov for indices 1 .. num_trades-1:
the fuel argument counts the remaining iterations, i the stream index. -/
def markovTail (rand : Nat → Rat) (avg_win avg_loss p_win_after_win p_win_after_loss : Rat) :
    Nat → Nat → Bool → List Rat
  | 0, _, _ => []
  | n + 1, i, last_win =>
    (if rand i < (if last_win then p_win_after_win else p_win_after_loss)
     then avg_win else -avg_loss)
      :: markovTail rand avg_win avg_loss p_win_after_win p_win_after_loss n (i + 1)
          (rand i < (if last_win then p_win_after_win else p_win_after_loss))

/-- simulate_trades_markov (lines 68-85): the first outcome drawn at
hit_rate, each later one at the probability selected by the previous
outcome.  The first outcome is emitted even when num_trades = 0, exactly as
in the source. -/
def simulate_trades_markov (rand : Nat → Rat) (num_trades : Nat)
    (hit_rate avg_win avg_loss p_win_after_win p_win_after_loss : Rat) : List Rat :=
  (if rand 0 < hit_rate then avg_win else -avg_loss)
    :: markovTail rand avg_win avg_loss p_win_after_win p_win_after_loss
        (num_trades - 1) 1 (rand 0 < hit_rate)

/-- The loop of simulate_trades_markov2 for indices 2 .. num_trades-1,
carrying the previous two outcomes. -/
def markov2Tail (rand : Nat → Rat) (avg_win avg_loss p_win_ww p_win_wl p_win_lw p_win_ll : Rat) :
    Nat → Nat → Bool → Bool → List Rat
  | 0, _, _, _ => []
  | n + 1, i, prev2, prev1 =>
    (if rand i < (if prev2 && prev1 then p_win_ww
                  else if prev2 && !prev1 then p_win_wl
                  else if !prev2 && prev1 then p_win_lw
                  else p_win_ll)
     then avg_win else -avg_loss)
      :: markov2Tail rand avg_win avg_loss p_win_ww p_win_wl p_win_lw p_win_ll n (i + 1) prev1
          (rand i < (if prev2 && prev1 then p_win_ww
                     else if prev2 && !prev1 then p_win_wl
                     else if !prev2 && prev1 then p_win_lw
                     else p_win_ll))

/-- simulate_trades_markov2 (lines 87-104): two seed outcomes drawn at
hit_rate are always emitted (the loop runs over range(2, num_trades)), so
the result has max(2, num_trades) entries. -/
def simulate_trades_markov2 (rand : Nat → Rat) (num_trades : Nat)
    (hit_rate avg_win avg_loss p_win_ww p_win_wl p_win_lw p_win_ll : Rat) : List Rat :=
  (if rand 0 < hit_rate then avg_win else -avg_loss)
    :: (if rand 1 < hit_rate then avg_win else -avg_loss)
    :: markov2Tail rand avg_win avg_loss p_win_ww p_win_wl p_win_lw p_win_ll
        (num_trades - 2) 2 (rand 0 < hit_rate) (rand 1 < hit_rate)

/-- The default regimes of simulate_trades_regime_switch (lines 108-112):
int(num_trades * 0.3) and int(num_trades * 0.5) are the floors
num_trades * 3 / 10 and num_trades / 2. -/
def defaultRegimes (num_trades : Nat) : List Phase :=
  [ { len := num_trades * 3 / 10, hit_rate := 9/10, avg_win := 200, avg_loss := 100 },
    { len := num_trades / 5, hit_rate := 1/2, avg_win := 100, avg_loss := 100 },
    { len := num_trades - num_trades / 2, hit_rate := 1/5, avg_win := 100, avg_loss := 200 } ]

/-- simulate_trades_regime_switch (lines 106-128): the same loop as the
phased generator but with NO backfill of trades left over after the last
regime. -/
def simulate_trades_regime_switch (rand : Nat → Rat) (num_trades : Nat)
    (regimes : Option (List Phase)) : List Rat :=
  (runPhases rand (regimes.getD (defaultRegimes num_trades)) num_trades 0).1

/-- npChoice emits exactly the requested number of draws. -/
theorem npChoice_length (rand : Nat → Rat) (k0 : Nat) (hr w l : Rat) (k : Nat) :
    (npChoice rand k0 hr w l k).length = k := by
  simp [npChoice]

/-- The phase loop emits min(trades_left, total declared length) draws and
leaves exactly the rest of trades_left unconsumed. -/
theorem runPhases_spec (rand : Nat → Rat) (phs : List Phase) :
    ∀ tl k, (runPhases rand phs tl k).1.length = min tl (phs.map Phase.len).sum ∧
      (runPhases rand phs tl k).2.1 = tl - min tl (phs.map Phase.len).sum := by
  induction phs with
  | nil => intro tl k; simp [runPhases]
  | cons ph rest ih =>
    intro tl k
    simp only [runPhases, List.map_cons, List.sum_cons]
    by_cases h0 : min ph.len tl = 0
    · rw [if_pos h0]
      obtain ⟨h1, h2⟩ := ih tl k
      exact ⟨by rw [h1]; omega, by rw [h2]; omega⟩
    · rw [if_neg h0]
      by_cases h1 : tl - min ph.len tl = 0
      · simp only [if_pos h1]
        exact ⟨by simp [npChoice_length]; omega, by omega⟩
      · simp only [if_neg h1]
        obtain ⟨ih1, ih2⟩ := ih (tl - min ph.len tl) (k + min ph.len tl)
        constructor
        · simp only [List.length_append, npChoice_length, ih1]; omega
        · rw [ih2]; omega

/-- The tail loop of the 1st-order Markov generator emits one outcome per
unit of fuel. -/
theorem markovTail_length (rand : Nat → Rat) (w l pww pwl : Rat) :
    ∀ (n i : Nat) (b : Bool), (markovTail rand w l pww pwl n i b).length = n := by
  intro n
  induction n with
  | zero => intro i b; rfl
  | succ n ih => intro i b; simp [markovTail, ih]

/-- The tail loop of the 2nd-order Markov generator emits one outcome per
unit of fuel. -/
theorem markov2Tail_length (rand : Nat → Rat) (w l p1 p2 p3 p4 : Rat) :
    ∀ (n i : Nat) (b2 b1 : Bool), (markov2Tail rand w l p1 p2 p3 p4 n i b2 b1).length = n := by
  intro n
  induction n with
  | zero => intro i b2 b1; rfl
  | succ n ih => intro i b2 b1; simp [markov2Tail, ih]

/-- Claim C4 counterexample: at num_trades = 1 the 2nd-order Markov
generator returns a sequence of length 2, not 1: its two seed outcomes are
emitted unconditionally. -/
theorem claim_C4_markov2_length_one_refuted :
    (simulate_trades_markov2 (fun _ => 0) 1 1 100 100 1 1 1 1).length ≠ 1 := by
  decide

/-- Claim C4 (amended): the phased generator returns exactly num_trades
trades for every num_trades, the 1st-order Markov generator for every
num_trades ≥ 1, and the 2nd-order Markov generator only for num_trades ≥ 2
(it always emits its 2 seed trades); the regime-switching generator
returns min(num_trades, sum of the declared regime lengths) trades — never
more than num_trades and fewer exactly when the declared lengths sum to
less, with no backfill. -/
theorem claim_C4_generator_lengths :
    (∀ (rand : Nat → Rat) (num_trades : Nat) (hit_rate avg_win avg_loss : Rat),
      (simulate_trades_dynamic rand num_trades hit_rate avg_win avg_loss).length
        = num_trades) ∧
    (∀ (rand : Nat → Rat) (num_trades : Nat) (hr w l pww pwl : Rat), 1 ≤ num_trades →
      (simulate_trades_markov rand num_trades hr w l pww pwl).length = num_trades) ∧
    (∀ (rand : Nat → Rat) (num_trades : Nat) (hr w l p1 p2 p3 p4 : Rat), 2 ≤ num_trades →
      (simulate_trades_markov2 rand num_trades hr w l p1 p2 p3 p4).length = num_trades) ∧
    (∀ (rand : Nat → Rat) (num_trades : Nat) (regimes : List Phase),
      (simulate_trades_regime_switch rand num_trades (some regimes)).length
        = min num_trades (regimes.map Phase.len).sum) := by
  refine ⟨?_, ?_, ?_, ?_⟩
  · intro rand n hr w l
    obtain ⟨h1, h2⟩ := runPhases_spec rand (dynamicPhases n hr w l) n 0
    simp only [simulate_trades_dynamic, List.length_append, npChoice_length, h1, h2]
    omega
  · intro rand n hr w l pww pwl hn
    simp only [simulate_trades_markov, List.length_cons, markovTail_length]
    omega
  · intro rand n hr w l p1 p2 p3 p4 hn
    simp only [simulate_trades_markov2, List.length_cons, markov2Tail_length]
    omega
  · intro rand n regimes
    exact (runPhases_spec rand regimes n 0).1

/-- Claim C4 witness: the amended length facts at concrete inputs, with
every hypothesis discharged there (num_trades 3 for the Markov generators,
a 2-regime list of total length 2 against num_trades 5 for the
regime-switching generator). -/
theorem claim_C4_generator_lengths_witness :
    (simulate_trades_dynamic (fun _ => 0) 7 1 100 100).length = 7 ∧
    (simulate_trades_markov (fun _ => 0) 3 1 100 100 1 1).length = 3 ∧
    (simulate_trades_markov2 (fun _ => 0) 3 1 100 100 1 1 1 1).length = 3 ∧
    (simulate_trades_regime_switch (fun _ => 0) 5
        (some [{ len := 1, hit_rate := 1, avg_win := 100, avg_loss := 100 },
               { len := 1, hit_rate := 1, avg_win := 100, avg_loss := 100 }])).length
      = min 5 ([({ len := 1, hit_rate := 1, avg_win := 100, avg_loss := 100 } : Phase),
               { len := 1, hit_rate := 1, avg_win := 100, avg_loss := 100 }].map Phase.len).sum := by
  refine ⟨claim_C4_generator_lengths.1 (fun _ => 0) 7 1 100 100,
    claim_C4_generator_lengths.2.1 (fun _ => 0) 3 1 100 100 1 1 (by norm_num),
    claim_C4_generator_lengths.2.2.1 (fun _ => 0) 3 1 100 100 1 1 1 1 (by norm_num),
    claim_C4_generator_lengths.2.2.2 (fun _ => 0) 5 _⟩

/-- A Python float as it appears in the two ratio columns of the ranking:
either a finite value or the sentinel float('inf') assigned when the
drawdown denominator is zero. -/
inductive PyFloat where
  | fin (q : Rat)
  | inf
deriving DecidableEq

/-- Python's <= on such values: every finite value is below inf, and
inf <= inf holds. -/
def PyFloat.le : PyFloat → PyFloat → Prop
  | .fin a, .fin b => a ≤ b
  | _, .inf => True
  | .inf, .fin _ => False

/-- Python's < on such values: finite values are below inf, and inf is
below nothing. -/
def PyFloat.lt : PyFloat → PyFloat → Prop
  | .fin a, .fin b => a < b
  | .fin _, .inf => True
  | .inf, _ => False

instance : ∀ a b : PyFloat, Decidable (PyFloat.le a b)
  | .fin a, .fin b => inferInstanceAs (Decidable (a ≤ b))
  | .fin _, .inf => Decidable.isTrue trivial
  | .inf, .inf => Decidable.isTrue trivial
  | .inf, .fin _ => Decidable.isFalse fun h => h

instance : ∀ a b : PyFloat, Decidable (PyFloat.lt a b)
  | .fin a, .fin b => inferInstanceAs (Decidable (a < b))
  | .fin _, .inf => Decidable.isTrue trivial
  | .inf, .fin _ => Decidable.isFalse fun h => h
  | .inf, .inf => Decidable.isFalse fun h => h

/-- On these order-complete values, < is the negation of the reversed <=,
exactly as for Python floats away from nan. -/
theorem PyFloat.lt_iff_not_le (a b : PyFloat) : PyFloat.lt a b ↔ ¬ PyFloat.le b a := by
  cases a <;> cases b <;> simp [PyFloat.lt, PyFloat.le]

/-- The comparison is total. -/
theorem PyFloat.le_total_pair (a b : PyFloat) : PyFloat.le a b ∨ PyFloat.le b a := by
  cases a <;> cases b <;> simp [PyFloat.le]
  exact le_total _ _

/-- The comparison is transitive. -/
theorem PyFloat.le_trans_pair (a b c : PyFloat) :
    PyFloat.le a b → PyFloat.le b c → PyFloat.le a c := by
  cases a <;> cases b <;> cases c <;> simp [PyFloat.le]
  exact le_trans

/-- One row of summary_final (src/dps_sub.py line 522): the tuple
(description, avg_profit, avg_drawdown, ratio, min_profit, max_profit,
min_dd, max_dd, avg_per_trade, ratio_max_dd). -/
structure StratRow where
  description : String
  avg_profit : Rat
  avg_drawdown : Rat
  ratio : PyFloat
  min_profit : Rat
  max_profit : Rat
  min_dd : Rat
  max_dd : Rat
  avg_per_trade : Rat
  ratio_max_dd : PyFloat
deriving DecidableEq

/-- np.mean of a list of rationals.  np.mean of an empty array is nan (with
a warning); every caller below passes a non-empty list, where this is the
exact arithmetic mean. -/
def npMean (l : List Rat) : Rat := l.sum / l.length

/-- np.min of a list of rationals.  np.min raises on an empty array; every
caller below passes a non-empty list, where the default 0 is never used. -/
def npMin : List Rat → Rat
  | [] => 0
  | x :: xs => xs.foldl min x

/-- np.max of a list of rationals.  np.max raises on an empty array; every
caller below passes a non-empty list, where the default 0 is never used. -/
def npMax : List Rat → Rat
  | [] => 0
  | x :: xs => xs.foldl max x

/-- The descriptions dict of run_all_strategies (src/dps_sub.py
lines 451-472). -/
def descriptions : Nat → String
  | 1 => "Constant position size 1"
  | 2 => "Increase to 2 after win, reset to 1 after loss"
  | 3 => "Increase to 2 after win, reset to 1 after loss or 2 wins"
  | 4 => "Increase to 2 after win, reset to 1 after loss or 3 wins"
  | 5 => "Increase to 2 after win, reset to 1 after loss or 4 wins"
  | 6 => "Increase to 2 after loss, reset to 1 after win"
  | 7 => "Increase to 2 after 2 losses, reset to 1 after win"
  | 8 => "Increase to 2 after 3 losses, reset to 1 after win"
  | 9 => "Pause after 1 win until next loss"
  | 10 => "Pause after 2 wins until next loss"
  | 11 => "Pause after 3 wins until next loss"
  | 12 => "Pause after 4 wins until next loss"
  | 13 => "Increase to 2 after 2 wins, reset to 1 after 2 losses"
  | 14 => "Increase to 2 after 1 win and 1 loss, else 1"
  | 15 => "Pause after 2 consecutive wins until 1 loss, then increase to 2"
  | 16 => "Increase to 2 after 2 losses, pause after 1 win until next loss"
  | 17 => "Increase to 2 after 1 win only if preceded by 1 loss, else 1"
  | 18 => "Increase to 3 after 3 wins, reset to 1 after 1 loss"
  | 19 => "Increase to 2 after 2 wins, to 3 after 2 losses, else 1"
  | 20 => "Increase to 2 after 1 win, to 3 after 2 losses, reset to 1 after win"
  | _ => ""

/-- The per-policy aggregation of run_all_strategies (lines 510-522):
from the sample list of one policy, the summary_final row, with
ratio = avg_profit / abs(avg_drawdown) if avg_drawdown != 0 else inf and
ratio_max_dd = avg_profit / abs(max_dd) if max_dd != 0 else inf. -/
def strategyRow (descr : String) (samples : List (Rat × Rat)) (num_trades : Rat) : StratRow :=
  { description := descr
    avg_profit := npMean (samples.map Prod.fst)
    avg_drawdown := npMean (samples.map Prod.snd)
    ratio :=
      if npMean (samples.map Prod.snd) ≠ 0 then
        PyFloat.fin (npMean (samples.map Prod.fst) / |npMean (samples.map Prod.snd)|)
      else PyFloat.inf
    min_profit := npMin (samples.map Prod.fst)
    max_profit := npMax (samples.map Prod.fst)
    min_dd := npMin (samples.map Prod.snd)
    max_dd := npMax (samples.map Prod.snd)
    avg_per_trade := npMean (samples.map Prod.fst) / num_trades
    ratio_max_dd :=
      if npMax (samples.map Prod.snd) ≠ 0 then
        PyFloat.fin (npMean (samples.map Prod.fst) / |npMax (samples.map Prod.snd)|)
      else PyFloat.inf }

/-- The summary_final list before sorting: one row per policy id 1..20,
built from that policy's accumulated (profit, drawdown) samples. -/
def summary_final_rows (samples : Nat → List (Rat × Rat)) (num_trades : Rat) : List StratRow :=
  (List.range 20).map fun j => strategyRow (descriptions (j + 1)) (samples (j + 1)) num_trades

/-- The key order of the two sort calls in src/dps_sub.py lines 526-527:
both partitions are sorted by descending ratio_max_dd (reverse=True).
Python's list.sort is stable, as is List.insertionSort, so for this total
preorder the two sorts return identical lists. -/
def rowGE (a b : StratRow) : Prop := PyFloat.le b.ratio_max_dd a.ratio_max_dd

instance : DecidableRel rowGE := fun a b =>
  inferInstanceAs (Decidable (PyFloat.le b.ratio_max_dd a.ratio_max_dd))

instance : IsTotal StratRow rowGE :=
  ⟨fun a b => PyFloat.le_total_pair b.ratio_max_dd a.ratio_max_dd⟩

instance : IsTrans StratRow rowGE :=
  ⟨fun _ _ _ hab hbc => PyFloat.le_trans_pair _ _ _ hbc hab⟩

/-- The ranking tail of run_all_strategies in src/dps_sub.py
(lines 524-528): partition summary_final into the rows with
ratio_max_dd >= 0 and those with ratio_max_dd < 0, sort both partitions by
descending ratio_max_dd (both sort calls pass reverse=True), and
concatenate. -/
def run_all_strategies_ranking (rows : List StratRow) : List StratRow :=
  (rows.filter fun r => decide (PyFloat.le (PyFloat.fin 0) r.ratio_max_dd)).insertionSort rowGE
    ++ (rows.filter fun r => decide (PyFloat.lt r.ratio_max_dd (PyFloat.fin 0))).insertionSort rowGE

/-- The two partition predicates of the ranking are complementary:
row[9] < 0 is the negation of row[9] >= 0. -/
theorem ranking_filter_neg_eq (rows : List StratRow) :
    (rows.filter fun r => decide (PyFloat.lt r.ratio_max_dd (PyFloat.fin 0)))
      = rows.filter fun r => !(decide (PyFloat.le (PyFloat.fin 0) r.ratio_max_dd)) := by
  refine List.filter_congr ?_
  intro x _
  rw [Bool.eq_iff_iff]
  simp [PyFloat.lt_iff_not_le]

/-- Claim C3 (amended): for per-policy sample lists as accumulated by
run_all_strategies (non-empty for each policy), the ranked output has
exactly 20 entries with pairwise distinct descriptions, and splits into the
rows with non-negative ratio_max_dd sorted descending by that ratio,
followed by the rows with negative ratio_max_dd also sorted descending by
value — i.e. least negative first, as dps_sub.py sorts them (reverse=True);
the variant in MyTradingSimulator_sub.py instead sorts the negative
partition ascending. -/
theorem claim_C3_ranking_amended (samples : Nat → List (Rat × Rat)) (num_trades : Rat)
    (_hne : ∀ i, 1 ≤ i → i ≤ 20 → samples i ≠ []) :
    (run_all_strategies_ranking (summary_final_rows samples num_trades)).length = 20 ∧
    ((run_all_strategies_ranking (summary_final_rows samples num_trades)).map
        StratRow.description).Nodup ∧
    ∃ l1 l2,
      run_all_strategies_ranking (summary_final_rows samples num_trades) = l1 ++ l2 ∧
      (∀ r ∈ l1, PyFloat.le (PyFloat.fin 0) r.ratio_max_dd) ∧
      (∀ r ∈ l2, PyFloat.lt r.ratio_max_dd (PyFloat.fin 0)) ∧
      List.Sorted rowGE l1 ∧ List.Sorted rowGE l2 := by
  have hperm : List.Perm (run_all_strategies_ranking (summary_final_rows samples num_trades))
      (summary_final_rows samples num_trades) := by
    unfold run_all_strategies_ranking
    refine ((List.perm_insertionSort rowGE _).append (List.perm_insertionSort rowGE _)).trans ?_
    rw [ranking_filter_neg_eq]
    exact List.filter_append_perm _ _
  have hlen : (summary_final_rows samples num_trades).length = 20 := by
    simp [summary_final_rows]
  have hdesc : (summary_final_rows samples num_trades).map StratRow.description
      = (List.range 20).map fun j => descriptions (j + 1) := rfl
  refine ⟨hperm.length_eq.trans hlen, ?_, ?_⟩
  · refine (List.Perm.nodup_iff (hperm.map StratRow.description)).mpr ?_
    rw [hdesc]
    decide
  · refine ⟨_, _, ?_, ?_, ?_, List.sorted_insertionSort rowGE
        ((summary_final_rows samples num_trades).filter
          fun r => decide (PyFloat.le (PyFloat.fin 0) r.ratio_max_dd)),
      List.sorted_insertionSort rowGE
        ((summary_final_rows samples num_trades).filter
          fun r => decide (PyFloat.lt r.ratio_max_dd (PyFloat.fin 0)))⟩
    · rfl
    · intro r hr
      exact of_decide_eq_true
        (List.mem_filter.mp ((List.perm_insertionSort rowGE _).mem_iff.mp hr)).2
    · intro r hr
      exact of_decide_eq_true
        (List.mem_filter.mp ((List.perm_insertionSort rowGE _).mem_iff.mp hr)).2

/-- Claim C3 witness: the amended ranking facts when every policy has the
single sample (1, -1). -/
theorem claim_C3_ranking_witness :
    (run_all_strategies_ranking (summary_final_rows (fun _ => [(1, -1)]) 400)).length = 20 ∧
    ((run_all_strategies_ranking (summary_final_rows (fun _ => [(1, -1)]) 400)).map
        StratRow.description).Nodup ∧
    ∃ l1 l2,
      run_all_strategies_ranking (summary_final_rows (fun _ => [(1, -1)]) 400) = l1 ++ l2 ∧
      (∀ r ∈ l1, PyFloat.le (PyFloat.fin 0) r.ratio_max_dd) ∧
      (∀ r ∈ l2, PyFloat.lt r.ratio_max_dd (PyFloat.fin 0)) ∧
      List.Sorted rowGE l1 ∧ List.Sorted rowGE l2 :=
  claim_C3_ranking_amended (fun _ => [(1, -1)]) 400 (fun _ _ _ => by simp)

/-- The per-policy samples of the concrete ranking counterexample: every
policy gets the single sample (1, -1) (ratio 1) except policy 19 with
(-5, -1) (ratio -5) and policy 20 with (-1, -1) (ratio -1). -/
def cxSamples : Nat → List (Rat × Rat) := fun i =>
  if i = 19 then [(-5, -1)] else if i = 20 then [(-1, -1)] else [(1, -1)]

/-- The row strategyRow builds from the single sample (p, -1) at
num_trades = 400. -/
def cxRow (d : String) (p : Rat) : StratRow :=
  { description := d, avg_profit := p, avg_drawdown := -1, ratio := PyFloat.fin p,
    min_profit := p, max_profit := p, min_dd := -1, max_dd := -1,
    avg_per_trade := p / 400, ratio_max_dd := PyFloat.fin p }

/-- The 20 rows summary_final builds from cxSamples. -/
def cxRows : List StratRow :=
  [cxRow (descriptions 1) 1, cxRow (descriptions 2) 1, cxRow (descriptions 3) 1,
   cxRow (descriptions 4) 1, cxRow (descriptions 5) 1, cxRow (descriptions 6) 1,
   cxRow (descriptions 7) 1, cxRow (descriptions 8) 1, cxRow (descriptions 9) 1,
   cxRow (descriptions 10) 1, cxRow (descriptions 11) 1, cxRow (descriptions 12) 1,
   cxRow (descriptions 13) 1, cxRow (descriptions 14) 1, cxRow (descriptions 15) 1,
   cxRow (descriptions 16) 1, cxRow (descriptions 17) 1, cxRow (descriptions 18) 1,
   cxRow (descriptions 19) (-5), cxRow (descriptions 20) (-1)]

/-- Claim C3 counterexample: on the concrete samples above, the negative
partition of the ranked output carries the ratios [-1, -5] in that order —
sorted descending (least negative first), not ascending: the claim's
'sorted ascending' is false of the ranking in dps_sub.py, whose negative
sort also passes reverse=True. -/
theorem claim_C3_negative_ascending_refuted :
    ((run_all_strategies_ranking (summary_final_rows cxSamples 400)).map
        fun r => r.ratio_max_dd).drop 18
      = [PyFloat.fin (-1), PyFloat.fin (-5)] ∧
    ¬ PyFloat.le (PyFloat.fin (-1)) (PyFloat.fin (-5)) := by
  have hrows : summary_final_rows cxSamples 400 = cxRows := by
    norm_num [summary_final_rows, cxSamples, strategyRow, npMean, npMin, npMax,
      cxRows, cxRow, List.range_succ]
  rw [hrows]
  decide

/-- Claim C8: a zero denominator in the per-policy aggregates never raises:
when the average drawdown is 0 the ratio column is the infinite sentinel,
when the worst-case (np.max) drawdown sample is 0 the profit-to-max-drawdown
column is the infinite sentinel, and in all other cases both columns equal
avg_profit divided by the absolute value of the respective drawdown. -/
theorem claim_C8_zero_denominator_sentinel (descr : String) (samples : List (Rat × Rat))
    (num_trades : Rat) (_hne : samples ≠ []) :
    ((npMean (samples.map Prod.snd) = 0 →
        (strategyRow descr samples num_trades).ratio = PyFloat.inf) ∧
      (npMean (samples.map Prod.snd) ≠ 0 →
        (strategyRow descr samples num_trades).ratio
          = PyFloat.fin (npMean (samples.map Prod.fst) / |npMean (samples.map Prod.snd)|))) ∧
    ((npMax (samples.map Prod.snd) = 0 →
        (strategyRow descr samples num_trades).ratio_max_dd = PyFloat.inf) ∧
      (npMax (samples.map Prod.snd) ≠ 0 →
        (strategyRow descr samples num_trades).ratio_max_dd
          = PyFloat.fin (npMean (samples.map Prod.fst) / |npMax (samples.map Prod.snd)|))) := by
  refine ⟨⟨?_, ?_⟩, ?_, ?_⟩ <;> intro h <;> simp [strategyRow, h]

/-- Claim C8 witness: the sentinel cases at the concrete sample lists
[(100, 0)] (zero drawdown, both columns infinite) and [(100, -50)]
(non-zero drawdown, both columns finite). -/
theorem claim_C8_zero_denominator_witness :
    (strategyRow "w" [(100, 0)] 400).ratio = PyFloat.inf ∧
    (strategyRow "w" [(100, -50)] 400).ratio
      = PyFloat.fin (npMean ([((100 : Rat), (-50 : Rat))].map Prod.fst)
          / |npMean ([((100 : Rat), (-50 : Rat))].map Prod.snd)|) := by
  constructor
  · exact (claim_C8_zero_denominator_sentinel "w" [(100, 0)] 400 (by simp)).1.1
      (by norm_num [npMean])
  · exact (claim_C8_zero_denominator_sentinel "w" [(100, -50)] 400 (by simp)).1.2
      (by norm_num [npMean])
